import Mathlib

/-!
Verification of the CryptoZombies client core against its design spec.

The repository's testable core is (a) the pure trait deriver
`generateZombie(id, name, dna)` and (b) the `ZombieFactory` contract
gateway (`createRandomZombie`, `getZombie`, `watchNewZombieEvents`).
This file embeds both in Lean 4.

JavaScript strings are modelled as `List Char`; JavaScript bigints and
the (always integral, always small) `parseInt` results as `Nat`.  The
one place the source computes with IEEE-754 binary64 numbers,
`Math.floor((v / 100) * 360)` with `v : Nat`, `v < 100`, is embedded by
an exact rational model of round-to-nearest-even binary64 arithmetic
(`roundNE` below); on the reachable domain the operands are strictly
inside the normal range, so no subnormal/overflow handling is needed.
-/

namespace CryptoZombies

/-! ### JavaScript string and number primitives -/

/-- The character for decimal digit `d` (for `d < 10`). -/
def digitChar (d : Nat) : Char := Char.ofNat (48 + d)

/-- The numeric value of a decimal digit character. -/
def charVal (c : Char) : Nat := c.toNat - 48

/-- Whether `c` is one of `'0'`..`'9'` (the only characters the source's
`parseInt` calls ever consume). -/
def isDigitChar (c : Char) : Bool := 48 ≤ c.toNat && c.toNat ≤ 57

/-- Little-endian decimal digits of `n`, with explicit fuel so the
definition is structural (the fuel `n` itself always suffices). -/
def toDecAux : Nat → Nat → List Char
  | 0, _ => []
  | _ + 1, 0 => []
  | fuel + 1, n => digitChar (n % 10) :: toDecAux fuel (n / 10)

/-- JavaScript `n.toString()` for a non-negative bigint/number `n`:
its decimal rendering, most significant digit first. -/
def jsToString (n : Nat) : List Char :=
  if n = 0 then [digitChar 0] else (toDecAux n n).reverse

/-- JavaScript `s.padStart(16, '0')`: left-pad with `'0'` to length 16;
a string already at least 16 long is returned unchanged. -/
def padStart16 (l : List Char) : List Char :=
  List.replicate (16 - l.length) (digitChar 0) ++ l

/-- JavaScript `s.substring(i, j)` for `i ≤ j`: the characters at
positions `[i, j)` (clamped to the string length). -/
def substringJS (l : List Char) (i j : Nat) : List Char :=
  (l.drop i).take (j - i)

/-- Decimal value of a digit string, most significant digit first. -/
def valOfDigits (l : List Char) : Nat :=
  l.foldl (fun a c => 10 * a + charVal c) 0

/-- JavaScript `parseInt(s)` restricted to the shapes reachable in this
program (strings of decimal digits, possibly with trailing garbage):
parse the longest digit run at the front; `none` models `NaN` when no
leading digit exists.  Sign/whitespace/hex handling of full `parseInt`
is unreachable here (inputs are substrings of decimal renderings). -/
def parseIntJS (l : List Char) : Option Nat :=
  match l.takeWhile isDigitChar with
  | [] => none
  | ds => some (valOfDigits ds)

/-! ### Exact model of the source's binary64 computation

`roundNE num den` rounds the positive rational `num / den` to the
nearest binary64 value (ties to even), returning `(m, e)` with value
`m * 2 ^ (e - 52)`.  It assumes the result is in the normal finite
range, which holds for every operand the source produces. -/

/-- Fuel-driven floor of `log₂ n` (for `n ≥ 1`; `n` as its own fuel). -/
def log2Fuel : Nat → Nat → Nat
  | 0, _ => 0
  | fuel + 1, n => if n ≤ 1 then 0 else log2Fuel fuel (n / 2) + 1

/-- `ilog2 n = ⌊log₂ n⌋` for `n ≥ 1`. -/
def ilog2 (n : Nat) : Nat := log2Fuel n n

/-- The binary exponent `e` of the positive rational `num / den`:
the unique integer with `2 ^ e ≤ num / den < 2 ^ (e + 1)`. -/
def ratExp (num den : Nat) : Int :=
  if den ≤ num then Int.ofNat (ilog2 (num / den))
  else
    -(Int.ofNat (((List.range (ilog2 den + 2)).find?
        (fun t => den ≤ num * 2 ^ t)).getD (ilog2 den + 1)))

/-- Round the positive rational `num / den` to binary64,
round-to-nearest ties-to-even: the result `(m, e)` denotes the exact
double value `m * 2 ^ (e - 52)`. -/
def roundNE (num den : Nat) : Nat × Int :=
  let e := ratExp num den
  let s : Int := 52 - e
  let nd : Nat × Nat :=
    if 0 ≤ s then (num * 2 ^ s.toNat, den) else (num, den * 2 ^ (-s).toNat)
  let q := nd.1 / nd.2
  let r := nd.1 % nd.2
  let q' := if nd.2 < 2 * r || (2 * r == nd.2 && q % 2 == 1) then q + 1 else q
  (q', e)

/-- The source expression `Math.floor((v / 100) * 360)` evaluated in
IEEE-754 binary64 arithmetic, exactly: `v / 100` is rounded to the
nearest double, the product with `360` is rounded to the nearest
double, and the floor of that double is taken.  This model agrees with
actual double arithmetic on every reachable input (`v < 100`). -/
def jsColorOf (v : Nat) : Nat :=
  if v = 0 then 0
  else
    let x := roundNE v 100
    let num2 := x.1 * 360
    let nd : Nat × Nat :=
      if x.2 ≤ 52 then (num2, 2 ^ (52 - x.2).toNat)
      else (num2 * 2 ^ (x.2 - 52).toNat, 1)
    let y := roundNE nd.1 nd.2
    if 52 ≤ y.2 then y.1 * 2 ^ (y.2 - 52).toNat else y.1 / 2 ^ (52 - y.2).toNat

/-! ### The trait deriver (`generateZombie` in the source) -/

/-- The `ZombieDetails` record built by `generateZombie`.  Numeric
fields are `Nat` (the source's values are non-negative integers). -/
structure ZombieDetails where
  headChoice : Nat
  eyeChoice : Nat
  shirtChoice : Nat
  skinColorChoice : Nat
  eyeColorChoice : Nat
  clothesColorChoice : Nat
  zombieName : String
  zombieDescription : String
deriving DecidableEq, Repr

/-- Embedding of the source's `generateZombie(id, name, dna)`:
`dna.toString().padStart(16, '0')`, six `parseInt(substring(...))`
reads, `% k + 1` for head/eye/shirt, `Math.floor((v / 100) * 360)` for
the three colors, `name` passed through verbatim, and the constant
description.  A `none` result models `NaN` poisoning from a failed
`parseInt` (in JavaScript the object would still be returned, with
`NaN` fields; `isSome` below shows this never happens). -/
def generateZombie (id : Nat) (name : String) (dna : Nat) : Option ZombieDetails :=
  let dnaStr := padStart16 (jsToString dna)
  match parseIntJS (substringJS dnaStr 0 2), parseIntJS (substringJS dnaStr 2 4),
      parseIntJS (substringJS dnaStr 4 6), parseIntJS (substringJS dnaStr 6 8),
      parseIntJS (substringJS dnaStr 8 10), parseIntJS (substringJS dnaStr 10 12) with
  | some h, some e, some s, some c1, some c2, some c3 =>
      some { headChoice := h % 7 + 1
             eyeChoice := e % 11 + 1
             shirtChoice := s % 6 + 1
             skinColorChoice := jsColorOf c1
             eyeColorChoice := jsColorOf c2
             clothesColorChoice := jsColorOf c3
             zombieName := name
             zombieDescription := "A Level 1 CryptoZombie" }
  | _, _, _, _, _, _ => none

/-- The six numeric trait fields of a derived record, as a tuple. -/
def numericTraits (z : ZombieDetails) : Nat × Nat × Nat × Nat × Nat × Nat :=
  (z.headChoice, z.eyeChoice, z.shirtChoice,
   z.skinColorChoice, z.eyeColorChoice, z.clothesColorChoice)

/-- The record claim C1 describes, following the claim's words: pad the
decimal rendering of `dna` to 16 characters, take the decimal value of
each character range directly (no `parseInt`), and compute the colors
by the exact formula `⌊value / 100 * 360⌋` in rational arithmetic. -/
def specZombieRecord (name : String) (dna : Nat) : ZombieDetails :=
  let p := padStart16 (jsToString dna)
  { headChoice := valOfDigits (substringJS p 0 2) % 7 + 1
    eyeChoice := valOfDigits (substringJS p 2 4) % 11 + 1
    shirtChoice := valOfDigits (substringJS p 4 6) % 6 + 1
    skinColorChoice := valOfDigits (substringJS p 6 8) * 360 / 100
    eyeColorChoice := valOfDigits (substringJS p 8 10) * 360 / 100
    clothesColorChoice := valOfDigits (substringJS p 10 12) * 360 / 100
    zombieName := name
    zombieDescription := "A Level 1 CryptoZombie" }

/-- The exact color formula of the spec, adjusted by the minimum the
IEEE-754 evaluation forces: at source values 35 and 70 (and only
there, on the reachable domain) the double computation of
`(v / 100) * 360` lands just below the exact integer product, so the
floor is one less than `⌊v * 360 / 100⌋`. -/
def specColorAmended (v : Nat) : Nat :=
  v * 360 / 100 - (if v = 35 ∨ v = 70 then 1 else 0)

/-- The C1 record as amended: identical to `specZombieRecord` except
that each color uses `specColorAmended`. -/
def specZombieRecordAmended (name : String) (dna : Nat) : ZombieDetails :=
  let p := padStart16 (jsToString dna)
  { headChoice := valOfDigits (substringJS p 0 2) % 7 + 1
    eyeChoice := valOfDigits (substringJS p 2 4) % 11 + 1
    shirtChoice := valOfDigits (substringJS p 4 6) % 6 + 1
    skinColorChoice := specColorAmended (valOfDigits (substringJS p 6 8))
    eyeColorChoice := specColorAmended (valOfDigits (substringJS p 8 10))
    clothesColorChoice := specColorAmended (valOfDigits (substringJS p 10 12))
    zombieName := name
    zombieDescription := "A Level 1 CryptoZombie" }

/-! ### The contract gateway (`ZombieFactory` in the source)

The blockchain client collaborators (`walletClient`, `publicClient`)
are passed in as records of fallible operations (`Except Err _`
models a JavaScript promise that either resolves or rejects).  Each
gateway operation returns, besides its result, the trace of
collaborator primitives it invoked, in order, so that "never invoked"
and "invoked at most once" are expressible. -/

/-- The collaborator primitives the gateway can invoke. -/
inductive Prim where
  | requestAddresses
  | simulateContract
  | writeContract
  | readContract
deriving DecidableEq, Repr

/-- The argument record the source passes to
`publicClient.simulateContract`: contract address, function name, the
single `name` argument, and the (possibly absent) account obtained by
destructuring `requestAddresses()`'s array. -/
structure SimulateArgs (Account : Type) where
  address : String
  functionName : String
  arg : String
  account : Option Account
deriving DecidableEq

/-- The argument record the source passes to
`publicClient.readContract`: contract address, function name, and the
single `zombieId` argument. -/
structure ReadArgs where
  address : String
  functionName : String
  arg : Nat
deriving DecidableEq

/-- The wallet client collaborator: `requestAddresses` yields a list of
accounts, `writeContract` submits a simulated request and yields a
transaction hash (a string). -/
structure WalletClient (Err Account Request : Type) where
  requestAddresses : Except Err (List Account)
  writeContract : Request → Except Err String

/-- The public client collaborator: `simulateContract` yields the
prepared request, `readContract` yields the raw `zombies(id)` tuple
`(name, dna)`. -/
structure PublicClient (Err Account Request : Type) where
  simulateContract : SimulateArgs Account → Except Err Request
  readContract : ReadArgs → Except Err (String × Nat)

/-- Embedding of `ZombieFactory.createRandomZombie(name)`: request the
wallet's addresses, destructure the first (`const [account] = ...`),
simulate the call, then submit it with `writeContract`.  The source's
`catch { console.error(...); throw error }` rethrows the same error
object, so each rejection propagates unchanged.  The second component
is the trace of invoked primitives. -/
def createRandomZombie {Err Account Request : Type}
    (w : WalletClient Err Account Request) (p : PublicClient Err Account Request)
    (contractAddress : String) (name : String) :
    Except Err String × List Prim :=
  match w.requestAddresses with
  | .error e => (.error e, [.requestAddresses])
  | .ok accounts =>
    match p.simulateContract
        ⟨contractAddress, "createRandomZombie", name, accounts.head?⟩ with
    | .error e => (.error e, [.requestAddresses, .simulateContract])
    | .ok request =>
      match w.writeContract request with
      | .error e => (.error e, [.requestAddresses, .simulateContract, .writeContract])
      | .ok hash => (.ok hash, [.requestAddresses, .simulateContract, .writeContract])

/-- Embedding of `ZombieFactory.getZombie(zombieId)`: one
`readContract` call, whose tuple result is repackaged as
`{ name, dna }`; a rejection is rethrown unchanged by the
`catch`.  The second component is the trace of invoked primitives. -/
def getZombie {Err Account Request : Type}
    (p : PublicClient Err Account Request) (contractAddress : String) (zombieId : Nat) :
    Except Err (String × Nat) × List Prim :=
  match p.readContract ⟨contractAddress, "zombies", zombieId⟩ with
  | .error e => (.error e, [.readContract])
  | .ok result => (.ok (result.1, result.2), [.readContract])

/-! ### The event subscription (`watchNewZombieEvents` in the source) -/

/-- The decoded argument bundle of a `NewZombie` log as the client
library delivers it.  Each field is `Option`-valued: the library's
types allow any of them to be `undefined`, and the source's `!`
assertions are compile-time only (at runtime an `undefined` passes
through unchanged). -/
structure LogArgs where
  zombieId : Option Nat
  name : Option String
  dna : Option Nat
deriving DecidableEq, Repr

/-- A raw log in an `onLogs` batch: the `args` field is absent
(`none`) when the library could not decode the event arguments. -/
structure Log where
  args : Option LogArgs
deriving DecidableEq, Repr

/-- The event record the source's callback receives.  Its fields are
`Option`-valued because the source builds it with `log.args.zombieId!`
etc., which forwards `undefined` silently. -/
structure NewZombieEvent where
  zombieId : Option Nat
  name : Option String
  dna : Option Nat
deriving DecidableEq, Repr

/-- The source's `onLogs` handler in `watchNewZombieEvents`:
`logs.forEach(log => { if (log.args) { callback({...}) } })`.  The
returned list is the sequence of callback invocations, in batch
order; the handler has no error channel — a log without `args`
produces nothing at all. -/
def onLogsHandler : List Log → List NewZombieEvent
  | [] => []
  | log :: rest =>
    match log.args with
    | some a => ⟨a.zombieId, a.name, a.dna⟩ :: onLogsHandler rest
    | none => onLogsHandler rest

/-- Modelled from the spec: the client library's `watchContractEvent`
subscription object is not part of `src/` (it lives in the `viem`
collaborator), so its lifecycle is taken from the spec's state
machine — states `{active, stopped}`, created `active`, with the
returned unsubscribe handle the only transition. -/
structure Subscription where
  active : Bool
deriving DecidableEq, Repr

/-- Modelled from the spec: the subscription `watchNewZombieEvents`
creates starts in the `active` state. -/
def watchNewZombieEvents : Subscription := ⟨true⟩

/-- Modelled from the spec: invoking the returned handle stops the
subscription; it is a total function (never throws), and on an
already-stopped subscription it changes nothing. -/
def unwatch (s : Subscription) : Subscription := { s with active := false }

/-- Modelled from the spec: a batch of logs reported by the node is
decoded and delivered through the source's `onLogs` handler only while
the subscription is active; after `unwatch` nothing is delivered. -/
def deliverBatch (s : Subscription) (logs : List Log) : List NewZombieEvent :=
  if s.active then onLogsHandler logs else []

/-! ### Lemmas about the string primitives -/

theorem isDigitChar_digitChar {d : Nat} (h : d < 10) :
    isDigitChar (digitChar d) = true := by
  interval_cases d <;> decide

theorem charVal_le_nine {c : Char} (h : isDigitChar c = true) : charVal c ≤ 9 := by
  simp only [isDigitChar, Bool.and_eq_true, decide_eq_true_eq] at h
  simp only [charVal]
  omega

theorem toDecAux_digits :
    ∀ fuel n : Nat, ∀ c ∈ toDecAux fuel n, isDigitChar c = true := by
  intro fuel
  induction fuel with
  | zero => intro n c hc; simp [toDecAux] at hc
  | succ fuel ih =>
    intro n c hc
    match n with
    | 0 => simp [toDecAux] at hc
    | m + 1 =>
      simp only [toDecAux, List.mem_cons] at hc
      rcases hc with rfl | hc
      · exact isDigitChar_digitChar (Nat.mod_lt _ (by omega))
      · exact ih _ c hc

theorem jsToString_digits (n : Nat) : ∀ c ∈ jsToString n, isDigitChar c = true := by
  intro c hc
  unfold jsToString at hc
  split at hc
  · simp only [List.mem_singleton] at hc
    subst hc; decide
  · rw [List.mem_reverse] at hc
    exact toDecAux_digits n n c hc

theorem padStart16_digits {l : List Char} (h : ∀ c ∈ l, isDigitChar c = true) :
    ∀ c ∈ padStart16 l, isDigitChar c = true := by
  intro c hc
  simp only [padStart16, List.mem_append, List.mem_replicate] at hc
  rcases hc with ⟨-, rfl⟩ | hc
  · decide
  · exact h c hc

theorem padStart16_length_ge (l : List Char) : 16 ≤ (padStart16 l).length := by
  simp only [padStart16, List.length_append, List.length_replicate]
  omega

theorem padStart16_of_length_ge {l : List Char} (h : 16 ≤ l.length) :
    padStart16 l = l := by
  simp only [padStart16, Nat.sub_eq_zero_of_le h, List.replicate_zero, List.nil_append]

theorem substringJS_length (l : List Char) (i j : Nat) :
    (substringJS l i j).length = min (j - i) (l.length - i) := by
  simp [substringJS]

theorem substringJS_mem {l : List Char} {i j : Nat} :
    ∀ c ∈ substringJS l i j, c ∈ l := by
  intro c hc
  exact List.mem_of_mem_drop (List.mem_of_mem_take hc)

theorem takeWhile_all {p : Char → Bool} :
    ∀ {l : List Char}, (∀ c ∈ l, p c = true) → l.takeWhile p = l := by
  intro l
  induction l with
  | nil => intro; rfl
  | cons c cs ih =>
    intro h
    rw [List.takeWhile_cons_of_pos (h c (List.mem_cons_self c cs))]
    rw [ih fun x hx => h x (List.mem_cons_of_mem c hx)]

theorem parseIntJS_all_digits {l : List Char} (hne : l ≠ [])
    (hd : ∀ c ∈ l, isDigitChar c = true) :
    parseIntJS l = some (valOfDigits l) := by
  unfold parseIntJS
  rw [takeWhile_all hd]
  match l, hne with
  | c :: cs, _ => rfl

theorem valOfDigits_pair {a b : Char} : valOfDigits [a, b] = 10 * charVal a + charVal b := by
  simp [valOfDigits, List.foldl]

theorem valOfDigits_lt_100 {l : List Char} (hlen : l.length = 2)
    (hd : ∀ c ∈ l, isDigitChar c = true) : valOfDigits l < 100 := by
  match l, hlen with
  | [a, b], _ =>
    have ha := charVal_le_nine (hd a (by simp))
    have hb := charVal_le_nine (hd b (by simp))
    rw [valOfDigits_pair]
    omega

/-- Parsing a two-character slice of an all-digit string of sufficient
length succeeds and yields a value below 100. -/
theorem parse_slice {l : List Char} {i j : Nat} (hij : j = i + 2)
    (hl : j ≤ l.length) (hd : ∀ c ∈ l, isDigitChar c = true) :
    parseIntJS (substringJS l i j) = some (valOfDigits (substringJS l i j)) ∧
      valOfDigits (substringJS l i j) < 100 := by
  have hlen : (substringJS l i j).length = 2 := by
    rw [substringJS_length]
    omega
  have hdig : ∀ c ∈ substringJS l i j, isDigitChar c = true :=
    fun c hc => hd c (substringJS_mem c hc)
  have hne : substringJS l i j ≠ [] := by
    intro h
    rw [h] at hlen
    simp at hlen
  exact ⟨parseIntJS_all_digits hne hdig, valOfDigits_lt_100 hlen hdig⟩

/-- The decimal value of the characters at positions `[i, j)` of the
padded dna string — the quantity both the source (via `parseInt`) and
the spec (directly) compute. -/
def sliceVal (dna i j : Nat) : Nat :=
  valOfDigits (substringJS (padStart16 (jsToString dna)) i j)

theorem sliceVal_lt_100 (dna : Nat) {i j : Nat} (hij : j = i + 2) (hj : j ≤ 16) :
    sliceVal dna i j < 100 :=
  (parse_slice hij (le_trans hj (padStart16_length_ge _))
    (padStart16_digits (jsToString_digits dna))).2

/-- Evaluation of `generateZombie`: every `parseInt` succeeds, so the
result is the record whose fields are built from the slice values. -/
theorem generateZombie_eq (id : Nat) (name : String) (dna : Nat) :
    generateZombie id name dna = some
      { headChoice := sliceVal dna 0 2 % 7 + 1
        eyeChoice := sliceVal dna 2 4 % 11 + 1
        shirtChoice := sliceVal dna 4 6 % 6 + 1
        skinColorChoice := jsColorOf (sliceVal dna 6 8)
        eyeColorChoice := jsColorOf (sliceVal dna 8 10)
        clothesColorChoice := jsColorOf (sliceVal dna 10 12)
        zombieName := name
        zombieDescription := "A Level 1 CryptoZombie" } := by
  have hd := padStart16_digits (jsToString_digits dna)
  have hlen := padStart16_length_ge (jsToString dna)
  simp only [generateZombie]
  rw [(parse_slice (i := 0) (j := 2) rfl (by omega) hd).1,
      (parse_slice (i := 2) (j := 4) rfl (by omega) hd).1,
      (parse_slice (i := 4) (j := 6) rfl (by omega) hd).1,
      (parse_slice (i := 6) (j := 8) rfl (by omega) hd).1,
      (parse_slice (i := 8) (j := 10) rfl (by omega) hd).1,
      (parse_slice (i := 10) (j := 12) rfl (by omega) hd).1]
  rfl

/-- The IEEE-754 evaluation of the color formula agrees with the exact
formula except at source values 35 and 70, where it is one less;
verified over the whole reachable domain. -/
theorem jsColorOf_eq_specColorAmended : ∀ v < 100, jsColorOf v = specColorAmended v := by
  decide

/-- Colors never exceed 356 on the reachable domain. -/
theorem jsColorOf_le_356 : ∀ v < 100, jsColorOf v ≤ 356 := by
  decide

/-- A two-character slice ending at or before position 12 only looks at
the first 12 characters of the string. -/
theorem substringJS_take12 (l : List Char) {i j : Nat} (hi : i ≤ j) (hj : j ≤ 12) :
    substringJS (l.take 12) i j = substringJS l i j := by
  simp only [substringJS, List.drop_take, List.take_take]
  congr 1
  omega

/-- The number of decimal digits of `n` is at least `k + 1` once
`10 ^ k ≤ n`. -/
theorem toDecAux_length_ge :
    ∀ fuel n k : Nat, n ≤ fuel → 10 ^ k ≤ n → k + 1 ≤ (toDecAux fuel n).length := by
  intro fuel
  induction fuel with
  | zero =>
    intro n k hn hk
    have : 0 < 10 ^ k := Nat.pos_pow_of_pos k (by omega)
    omega
  | succ fuel ih =>
    intro n k hn hk
    have hpos : 0 < n := lt_of_lt_of_le (Nat.pos_pow_of_pos k (by omega)) hk
    match n, hpos with
    | m + 1, _ =>
      simp only [toDecAux, List.length_cons]
      match k with
      | 0 => omega
      | k' + 1 =>
        have hdiv : 10 ^ k' ≤ (m + 1) / 10 := by
          rw [Nat.le_div_iff_mul_le (by omega)]
          calc 10 ^ k' * 10 = 10 ^ (k' + 1) := by ring
            _ ≤ m + 1 := hk
        have hfuel : (m + 1) / 10 ≤ fuel := by
          have : (m + 1) / 10 < m + 1 := Nat.div_lt_self (by omega) (by omega)
          omega
        have := ih ((m + 1) / 10) k' hfuel hdiv
        omega

/-- Large dna (at least `10 ^ 16`) renders to at least 17 characters. -/
theorem jsToString_length_ge {dna : Nat} (h : 10 ^ 16 ≤ dna) :
    17 ≤ (jsToString dna).length := by
  have hpos : dna ≠ 0 := by
    intro h0
    rw [h0] at h
    simp at h
  unfold jsToString
  rw [if_neg hpos, List.length_reverse]
  exact toDecAux_length_ge dna dna 16 le_rfl h

/-- Slices of equal 12-character sections have equal values. -/
theorem sliceVal_congr_of_take12 {l1 l2 : List Char} {i j : Nat}
    (h : l1.take 12 = l2.take 12) (hi : i ≤ j) (hj : j ≤ 12) :
    valOfDigits (substringJS l1 i j) = valOfDigits (substringJS l2 i j) := by
  rw [← substringJS_take12 l1 hi hj, h, substringJS_take12 l2 hi hj]

/-! ### Claims about the trait deriver -/

/-- C1 counterexample: at `dna = 3500000000` the padded string is
`"0000003500000000"`, with value 35 at positions `[6,8)`; the claim's
formula demands `skinColorChoice = ⌊35 / 100 * 360⌋ = 126`, but the
source's IEEE-754 evaluation of `(35 / 100) * 360` yields
`125.99999999999999`, so the result field is 125 and the returned
record is not the record the claim describes. -/
theorem generateZombie_differs_from_exact_formula :
    (generateZombie 0 "Rex" 3500000000).map ZombieDetails.skinColorChoice = some 125 ∧
      (specZombieRecord "Rex" 3500000000).skinColorChoice = 126 ∧
      generateZombie 0 "Rex" 3500000000 ≠ some (specZombieRecord "Rex" 3500000000) := by
  refine ⟨by decide, by decide, ?_⟩
  intro h
  have := congrArg (Option.map ZombieDetails.skinColorChoice) h
  simp only [Option.map_some'] at this
  have h125 : (generateZombie 0 "Rex" 3500000000).map ZombieDetails.skinColorChoice =
      some 125 := by decide
  rw [h125] at this
  have h126 : (specZombieRecord "Rex" 3500000000).skinColorChoice = 126 := by decide
  rw [h126] at this
  exact absurd (Option.some.inj this) (by decide)

/-- C1 (amended): for every dna with at most 16 decimal digits,
`generateZombie` returns exactly the record obtained by left-padding
the decimal rendering of dna to 16 characters, with head/eye/shirt as
claimed and each color equal to `⌊v * 360 / 100⌋` diminished by one
exactly at `v ∈ {35, 70}`, where the source's IEEE-754 double
evaluation of `(v / 100) * 360` falls just below the exact value;
`zombieName` is the passed-in name, the description the constant. -/
theorem generateZombie_matches_amended_spec (id : Nat) (name : String) (dna : Nat)
    (hdna : dna < 10 ^ 16) :
    generateZombie id name dna = some (specZombieRecordAmended name dna) := by
  have h1 := jsColorOf_eq_specColorAmended (sliceVal dna 6 8)
    (sliceVal_lt_100 dna (i := 6) (j := 8) (by norm_num) (by norm_num))
  have h2 := jsColorOf_eq_specColorAmended (sliceVal dna 8 10)
    (sliceVal_lt_100 dna (i := 8) (j := 10) (by norm_num) (by norm_num))
  have h3 := jsColorOf_eq_specColorAmended (sliceVal dna 10 12)
    (sliceVal_lt_100 dna (i := 10) (j := 12) (by norm_num) (by norm_num))
  rw [generateZombie_eq, h1, h2, h3]
  rfl

/-- C1 witness: the spec's own worked example dna. -/
theorem generateZombie_matches_amended_spec_witness :
    1234567890123456 < 10 ^ 16 ∧
      generateZombie 7 "Rex" 1234567890123456 =
        some (specZombieRecordAmended "Rex" 1234567890123456) :=
  ⟨by norm_num, generateZombie_matches_amended_spec 7 "Rex" 1234567890123456 (by norm_num)⟩

/-- C2 counterexample: at `dna = 7000000000` (value 70 at positions
`[6,8)`) the returned `skinColorChoice` is 251, not
`⌊70 * 3.6⌋ = 252` as the claim's parenthetical mapping asserts: the
IEEE-754 evaluation of `(70 / 100) * 360` is `251.99999999999997`. -/
theorem generateZombie_color_not_exact_floor :
    (generateZombie 0 "" 7000000000).map ZombieDetails.skinColorChoice = some 251 ∧
      (generateZombie 0 "" 7000000000).map ZombieDetails.skinColorChoice ≠
        some (70 * 360 / 100) := by
  exact ⟨by decide, by decide⟩

/-- C2 (amended): for every dna below `10 ^ 16` the record satisfies
`headChoice ∈ [1,7]`, `eyeChoice ∈ [1,11]`, `shirtChoice ∈ [1,6]`, and
the three colors lie in `[0,359]` — indeed in `[0,356]`: each 2-digit
source value `v ∈ [0,99]` maps to the IEEE-754 floor of
`(v / 100) * 360`, which is at most 356 (it equals `⌊v * 3.6⌋` except
at `v ∈ {35, 70}`, where it is one less). -/
theorem generateZombie_traits_in_range (id : Nat) (name : String) (dna : Nat)
    (hdna : dna < 10 ^ 16) (z : ZombieDetails)
    (hz : generateZombie id name dna = some z) :
    (1 ≤ z.headChoice ∧ z.headChoice ≤ 7) ∧
      (1 ≤ z.eyeChoice ∧ z.eyeChoice ≤ 11) ∧
      (1 ≤ z.shirtChoice ∧ z.shirtChoice ≤ 6) ∧
      z.skinColorChoice ≤ 356 ∧ z.eyeColorChoice ≤ 356 ∧
      z.clothesColorChoice ≤ 356 := by
  rw [generateZombie_eq] at hz
  have c1 := jsColorOf_le_356 (sliceVal dna 6 8)
    (sliceVal_lt_100 dna (i := 6) (j := 8) (by norm_num) (by norm_num))
  have c2 := jsColorOf_le_356 (sliceVal dna 8 10)
    (sliceVal_lt_100 dna (i := 8) (j := 10) (by norm_num) (by norm_num))
  have c3 := jsColorOf_le_356 (sliceVal dna 10 12)
    (sliceVal_lt_100 dna (i := 10) (j := 12) (by norm_num) (by norm_num))
  cases Option.some.inj hz
  dsimp only
  omega

/-- C2 witness: the all-nines dna exercises the extreme color 356. -/
theorem generateZombie_traits_in_range_witness :
    9999999999999999 < 10 ^ 16 ∧
      generateZombie 1 "Z" 9999999999999999 =
        some ⟨2, 1, 4, 356, 356, 356, "Z", "A Level 1 CryptoZombie"⟩ ∧
      ((1 ≤ (2 : Nat) ∧ (2 : Nat) ≤ 7) ∧ (1 ≤ (1 : Nat) ∧ (1 : Nat) ≤ 11) ∧
        (1 ≤ (4 : Nat) ∧ (4 : Nat) ≤ 6) ∧ (356 : Nat) ≤ 356 ∧ (356 : Nat) ≤ 356 ∧
        (356 : Nat) ≤ 356) :=
  ⟨by norm_num, by decide,
    generateZombie_traits_in_range 1 "Z" 9999999999999999 (by norm_num)
      ⟨2, 1, 4, 356, 356, 356, "Z", "A Level 1 CryptoZombie"⟩ (by decide)⟩

/-- C3: for every dna below `10 ^ 16` (and any id and name),
`generateZombie` returns normally — every internal `parseInt`
succeeds, so the result is a well-formed record, never a failure —
and, being a pure function, repeated calls with identical inputs
return identical output. -/
theorem generateZombie_total_and_deterministic (id : Nat) (name : String) (dna : Nat)
    (hdna : dna < 10 ^ 16) :
    (generateZombie id name dna).isSome = true ∧
      generateZombie id name dna = generateZombie id name dna := by
  refine ⟨?_, rfl⟩
  rw [generateZombie_eq]
  rfl

/-- C3 witness. -/
theorem generateZombie_total_and_deterministic_witness :
    42 < 10 ^ 16 ∧ (generateZombie 0 "Bob" 42).isSome = true ∧
      generateZombie 0 "Bob" 42 = generateZombie 0 "Bob" 42 :=
  ⟨by norm_num, (generateZombie_total_and_deterministic 0 "Bob" 42 (by norm_num)).1,
    (generateZombie_total_and_deterministic 0 "Bob" 42 (by norm_num)).2⟩

/-- C4: the six numeric trait fields are functions of dna alone — two
calls with the same dna but different name and id arguments agree on
all six — and, since the six slices end at position 12, the padded
digits `[12,16)` are unused: two dna values whose padded strings agree
on positions `[0,12)` yield identical numeric trait fields. -/
theorem numericTraits_depend_only_on_dna_prefix :
    (∀ dna id1 name1 id2 name2, dna < 10 ^ 16 →
      (generateZombie id1 name1 dna).map numericTraits =
        (generateZombie id2 name2 dna).map numericTraits) ∧
    (∀ dna1 dna2 id1 name1 id2 name2, dna1 < 10 ^ 16 → dna2 < 10 ^ 16 →
      (padStart16 (jsToString dna1)).take 12 = (padStart16 (jsToString dna2)).take 12 →
      (generateZombie id1 name1 dna1).map numericTraits =
        (generateZombie id2 name2 dna2).map numericTraits) := by
  constructor
  · intro dna id1 name1 id2 name2 _
    rw [generateZombie_eq, generateZombie_eq]
    rfl
  · intro dna1 dna2 id1 name1 id2 name2 _ _ htake
    rw [generateZombie_eq, generateZombie_eq]
    simp only [Option.map_some', numericTraits, sliceVal]
    rw [sliceVal_congr_of_take12 htake (by norm_num) (by norm_num),
        sliceVal_congr_of_take12 htake (by norm_num) (by norm_num),
        sliceVal_congr_of_take12 htake (by norm_num) (by norm_num),
        sliceVal_congr_of_take12 htake (by norm_num) (by norm_num),
        sliceVal_congr_of_take12 htake (by norm_num) (by norm_num),
        sliceVal_congr_of_take12 htake (by norm_num) (by norm_num)]

/-- C4 witness: two dna values differing only in padded digits
`[12,16)` (and with different ids and names) yield the same six
numeric traits. -/
theorem numericTraits_depend_only_on_dna_prefix_witness :
    1111111111110000 < 10 ^ 16 ∧ 1111111111119999 < 10 ^ 16 ∧
      (padStart16 (jsToString 1111111111110000)).take 12 =
        (padStart16 (jsToString 1111111111119999)).take 12 ∧
      (generateZombie 0 "A" 1111111111110000).map numericTraits =
        (generateZombie 1 "B" 1111111111119999).map numericTraits :=
  ⟨by norm_num, by norm_num, by decide,
    numericTraits_depend_only_on_dna_prefix.2 1111111111110000 1111111111119999
      0 "A" 1 "B" (by norm_num) (by norm_num) (by decide)⟩

/-- C9: for dna of more than 16 decimal digits `generateZombie` still
returns normally; `padStart(16, '0')` leaves the (at least
17-character) rendering unchanged, and the six numeric traits are
computed from its first 12 characters — the most significant digits —
with all remaining digits ignored. -/
theorem generateZombie_large_dna (id : Nat) (name : String) (dna : Nat)
    (hdna : 10 ^ 16 ≤ dna) :
    padStart16 (jsToString dna) = jsToString dna ∧
      (generateZombie id name dna).isSome = true ∧
      ∀ id' name' dna', 10 ^ 16 ≤ dna' →
        (jsToString dna).take 12 = (jsToString dna').take 12 →
        (generateZombie id name dna).map numericTraits =
          (generateZombie id' name' dna').map numericTraits := by
  have hpad : padStart16 (jsToString dna) = jsToString dna :=
    padStart16_of_length_ge (by have := jsToString_length_ge hdna; omega)
  refine ⟨hpad, by rw [generateZombie_eq]; rfl, ?_⟩
  intro id' name' dna' hdna' htake
  have hpad' : padStart16 (jsToString dna') = jsToString dna' :=
    padStart16_of_length_ge (by have := jsToString_length_ge hdna'; omega)
  rw [generateZombie_eq, generateZombie_eq]
  simp only [Option.map_some', numericTraits, sliceVal, hpad, hpad']
  rw [sliceVal_congr_of_take12 htake (by norm_num) (by norm_num),
      sliceVal_congr_of_take12 htake (by norm_num) (by norm_num),
      sliceVal_congr_of_take12 htake (by norm_num) (by norm_num),
      sliceVal_congr_of_take12 htake (by norm_num) (by norm_num),
      sliceVal_congr_of_take12 htake (by norm_num) (by norm_num),
      sliceVal_congr_of_take12 htake (by norm_num) (by norm_num)]

/-- C9 witness: `10 ^ 16` (17 digits) and `10 ^ 17` (18 digits) agree
on their first 12 characters, so they derive the same traits; neither
is padded and both succeed. -/
theorem generateZombie_large_dna_witness :
    10 ^ 16 ≤ (10 ^ 16 : Nat) ∧ 10 ^ 16 ≤ (10 ^ 17 : Nat) ∧
      padStart16 (jsToString (10 ^ 16)) = jsToString (10 ^ 16) ∧
      (generateZombie 0 "Max" (10 ^ 16)).isSome = true ∧
      (generateZombie 0 "Max" (10 ^ 16)).map numericTraits =
        (generateZombie 1 "Min" (10 ^ 17)).map numericTraits :=
  ⟨le_rfl, by norm_num,
    (generateZombie_large_dna 0 "Max" (10 ^ 16) le_rfl).1,
    (generateZombie_large_dna 0 "Max" (10 ^ 16) le_rfl).2.1,
    (generateZombie_large_dna 0 "Max" (10 ^ 16) le_rfl).2.2 1 "Min" (10 ^ 17)
      (by norm_num) (by decide)⟩

/-! ### Claims about the gateway and the event subscription -/

/-- C5 counterexample: in a batch holding a log whose decoded `args`
carry only `undefined` fields, a log with `args` absent, and a
well-formed log, the source's handler invokes the callback with the
`undefined` fields passed through (silently coerced, exactly what the
claim forbids) for the first, produces nothing at all for the second —
no callback, and no failure report of any kind (the handler's only
output channel is the callback) — and delivers the third normally:
absent/undefined arguments are never surfaced as a decode failure. -/
theorem onLogsHandler_coerces_and_skips_silently :
    onLogsHandler [⟨some ⟨none, none, none⟩⟩, ⟨none⟩, ⟨some ⟨some 1, some "Rex", some 7⟩⟩] =
      [⟨none, none, none⟩, ⟨some 1, some "Rex", some 7⟩] := by
  rfl

/-- C5 (amended): a log whose `args` field is absent is skipped
silently — the callback is not invoked for it and no failure is
reported — while a log with `args` present is passed to the callback
with its (possibly undefined) fields forwarded verbatim; per-log
handling never terminates the subscription: the remaining logs of the
batch are processed unchanged, and an active subscription keeps
delivering later batches. -/
theorem onLogsHandler_per_log_behavior (a : LogArgs) (rest : List Log) (s : Subscription) :
    onLogsHandler (⟨none⟩ :: rest) = onLogsHandler rest ∧
      onLogsHandler (⟨some a⟩ :: rest) = ⟨a.zombieId, a.name, a.dna⟩ :: onLogsHandler rest ∧
      (s.active = true → deliverBatch s rest = onLogsHandler rest) := by
  refine ⟨rfl, rfl, fun h => ?_⟩
  simp [deliverBatch, h]

/-- C5 witness. -/
theorem onLogsHandler_per_log_behavior_witness :
    onLogsHandler [⟨none⟩, ⟨some ⟨some 2, some "Ana", some 99⟩⟩] =
        onLogsHandler [⟨some ⟨some 2, some "Ana", some 99⟩⟩] ∧
      (⟨true⟩ : Subscription).active = true ∧
      deliverBatch ⟨true⟩ [⟨some ⟨some 2, some "Ana", some 99⟩⟩] =
        onLogsHandler [⟨some ⟨some 2, some "Ana", some 99⟩⟩] :=
  ⟨(onLogsHandler_per_log_behavior ⟨some 2, some "Ana", some 99⟩
      [⟨some ⟨some 2, some "Ana", some 99⟩⟩] ⟨true⟩).1,
    rfl,
    (onLogsHandler_per_log_behavior ⟨some 2, some "Ana", some 99⟩
      [⟨some ⟨some 2, some "Ana", some 99⟩⟩] ⟨true⟩).2.2 rfl⟩

/-- C6: whenever the wallet yields its accounts but the pre-flight
`simulateContract` rejects, `createRandomZombie` fails with exactly
that simulation error and `writeContract` is never invoked — no
transaction is broadcast. -/
theorem simulation_revert_blocks_write {Err Account Request : Type}
    (w : WalletClient Err Account Request) (p : PublicClient Err Account Request)
    (addr name : String) (e : Err) (accounts : List Account)
    (hw : w.requestAddresses = .ok accounts)
    (hs : p.simulateContract ⟨addr, "createRandomZombie", name, accounts.head?⟩ = .error e) :
    (createRandomZombie w p addr name).1 = Except.error e ∧
      Prim.writeContract ∉ (createRandomZombie w p addr name).2 := by
  simp only [createRandomZombie, hw, hs]
  exact ⟨trivial, by decide⟩

/-- C6 witness: a public client whose simulation always reverts. -/
theorem simulation_revert_blocks_write_witness :
    (createRandomZombie
        (⟨Except.ok [()], fun _ => Except.ok "0xhash"⟩ : WalletClient String Unit Unit)
        (⟨fun _ => Except.error "SimulationReverted", fun _ => Except.ok ("", 0)⟩ :
          PublicClient String Unit Unit)
        "0xabc" "Rex").1 = Except.error "SimulationReverted" ∧
      Prim.writeContract ∉ (createRandomZombie
        (⟨Except.ok [()], fun _ => Except.ok "0xhash"⟩ : WalletClient String Unit Unit)
        (⟨fun _ => Except.error "SimulationReverted", fun _ => Except.ok ("", 0)⟩ :
          PublicClient String Unit Unit)
        "0xabc" "Rex").2 :=
  simulation_revert_blocks_write
    (⟨Except.ok [()], fun _ => Except.ok "0xhash"⟩ : WalletClient String Unit Unit)
    (⟨fun _ => Except.error "SimulationReverted", fun _ => Except.ok ("", 0)⟩ :
      PublicClient String Unit Unit)
    "0xabc" "Rex" "SimulationReverted" [()] rfl rfl

/-- The invocation trace of `createRandomZombie` is always one of
three prefixes of request-simulate-write. -/
theorem createRandomZombie_trace_cases {Err Account Request : Type}
    (w : WalletClient Err Account Request) (p : PublicClient Err Account Request)
    (addr name : String) :
    (createRandomZombie w p addr name).2 = [Prim.requestAddresses] ∨
      (createRandomZombie w p addr name).2 =
        [Prim.requestAddresses, Prim.simulateContract] ∨
      (createRandomZombie w p addr name).2 =
        [Prim.requestAddresses, Prim.simulateContract, Prim.writeContract] := by
  unfold createRandomZombie
  split
  · exact Or.inl rfl
  · split
    · exact Or.inr (Or.inl rfl)
    · split
      · exact Or.inr (Or.inr rfl)
      · exact Or.inr (Or.inr rfl)

/-- The invocation trace of `getZombie` is always a single read. -/
theorem getZombie_trace {Err Account Request : Type}
    (p : PublicClient Err Account Request) (addr : String) (zid : Nat) :
    (getZombie p addr zid).2 = [Prim.readContract] := by
  unfold getZombie
  split
  · rfl
  · rfl

/-- C7: every rejection of a collaborator primitive during
`createRandomZombie` or `getZombie` is propagated to the caller as the
same error value — no retry, no translation, no substitution — and
each collaborator primitive is invoked at most once per call. -/
theorem gateway_propagates_errors_unmodified {Err Account Request : Type}
    (w : WalletClient Err Account Request) (p : PublicClient Err Account Request)
    (addr name : String) (zid : Nat) :
    (∀ e, w.requestAddresses = .error e →
      (createRandomZombie w p addr name).1 = Except.error e) ∧
    (∀ e accounts, w.requestAddresses = .ok accounts →
      p.simulateContract ⟨addr, "createRandomZombie", name, accounts.head?⟩ = .error e →
      (createRandomZombie w p addr name).1 = Except.error e) ∧
    (∀ e accounts request, w.requestAddresses = .ok accounts →
      p.simulateContract ⟨addr, "createRandomZombie", name, accounts.head?⟩ = .ok request →
      w.writeContract request = .error e →
      (createRandomZombie w p addr name).1 = Except.error e) ∧
    (∀ e, p.readContract ⟨addr, "zombies", zid⟩ = .error e →
      (getZombie p addr zid).1 = Except.error e) ∧
    (∀ pr : Prim, (createRandomZombie w p addr name).2.count pr ≤ 1 ∧
      (getZombie p addr zid).2.count pr ≤ 1) := by
  refine ⟨?_, ?_, ?_, ?_, ?_⟩
  · intro e hw
    simp only [createRandomZombie, hw]
  · intro e accounts hw hs
    simp only [createRandomZombie, hw, hs]
  · intro e accounts request hw hs hr
    simp only [createRandomZombie, hw, hs, hr]
  · intro e hr
    simp only [getZombie, hr]
  · intro pr
    constructor
    · rcases createRandomZombie_trace_cases w p addr name with h | h | h <;>
        rw [h] <;> cases pr <;> decide
    · rw [getZombie_trace p addr zid]
      cases pr <;> decide

/-- C7 witness: a wallet whose address request rejects propagates that
very error; a public client whose read rejects propagates that very
error; in both cases each primitive was invoked at most once. -/
theorem gateway_propagates_errors_unmodified_witness :
    (createRandomZombie
        (⟨Except.error "boom", fun _ => Except.ok "0xhash"⟩ : WalletClient String Unit Unit)
        (⟨fun _ => Except.ok (), fun _ => Except.error "ReadFailed"⟩ :
          PublicClient String Unit Unit) "0xabc" "Rex").1 = Except.error "boom" ∧
      (getZombie
        (⟨fun _ => Except.ok (), fun _ => Except.error "ReadFailed"⟩ :
          PublicClient String Unit Unit) "0xabc" 3).1 = Except.error "ReadFailed" ∧
      (createRandomZombie
        (⟨Except.error "boom", fun _ => Except.ok "0xhash"⟩ : WalletClient String Unit Unit)
        (⟨fun _ => Except.ok (), fun _ => Except.error "ReadFailed"⟩ :
          PublicClient String Unit Unit) "0xabc" "Rex").2.count Prim.writeContract ≤ 1 :=
  ⟨(gateway_propagates_errors_unmodified
      (⟨Except.error "boom", fun _ => Except.ok "0xhash"⟩ : WalletClient String Unit Unit)
      (⟨fun _ => Except.ok (), fun _ => Except.error "ReadFailed"⟩ :
        PublicClient String Unit Unit) "0xabc" "Rex" 3).1 "boom" rfl,
    (gateway_propagates_errors_unmodified
      (⟨Except.error "boom", fun _ => Except.ok "0xhash"⟩ : WalletClient String Unit Unit)
      (⟨fun _ => Except.ok (), fun _ => Except.error "ReadFailed"⟩ :
        PublicClient String Unit Unit) "0xabc" "Rex" 3).2.2.2.1 "ReadFailed" rfl,
    ((gateway_propagates_errors_unmodified
      (⟨Except.error "boom", fun _ => Except.ok "0xhash"⟩ : WalletClient String Unit Unit)
      (⟨fun _ => Except.ok (), fun _ => Except.error "ReadFailed"⟩ :
        PublicClient String Unit Unit) "0xabc" "Rex" 3).2.2.2.2 Prim.writeContract).1⟩

/-- C8: the subscription returned by `watchNewZombieEvents` starts
active; invoking the unsubscribe handle stops it, after which no
batch, whatever logs it holds, produces any callback invocation;
invoking the handle again is a no-op (it is a total function — nothing
is thrown — and it leaves the already-stopped subscription exactly as
it is), and stopping is the handle's one-way transition. -/
theorem unsubscribe_stops_and_is_idempotent (s : Subscription) (logs : List Log) :
    watchNewZombieEvents.active = true ∧
      (unwatch s).active = false ∧
      deliverBatch (unwatch s) logs = [] ∧
      unwatch (unwatch s) = unwatch s := by
  refine ⟨rfl, rfl, ?_, rfl⟩
  simp [deliverBatch, unwatch]

/-- C10: a log whose `args` field is absent is skipped silently — the
callback is not invoked for it and no error is raised (the handler
total-returns the callback sequence) — and the handler equals the
in-order filter-map of the batch: every later log that does have
`args` is still delivered, in batch order, exactly once per log. -/
theorem onLogsHandler_filterMap :
    (∀ logs, onLogsHandler logs =
      logs.filterMap fun log => log.args.map fun a => ⟨a.zombieId, a.name, a.dna⟩) ∧
    (∀ rest, onLogsHandler ({ args := none } :: rest) = onLogsHandler rest) := by
  constructor
  · intro logs
    induction logs with
    | nil => rfl
    | cons log rest ih =>
      cases h : log.args <;>
        simp [onLogsHandler, h, ih, List.filterMap_cons]
  · intro rest
    rfl

end CryptoZombies
